import Mathlib

/-!
Shallow embedding of the Sharda Inventory Management core.

This file embeds the transaction-lifecycle and inventory-reconciliation core
of the repository in Lean 4 and proves the frozen claims about it.

Sources embedded:
* `useTransactions` hook (unnamed source file, "part_001"):
  `isStatusValidForType`, `getNextStatusForType`, `getTransactionType`,
  `createTransaction` (including the reference-number generator and the
  transfer mirror), `updateTransactionDetail`, `advanceTransactionToNextStep`.
* `useInventoryCount.ts`: the latest-snapshot dedup of `fetchInitialInventory`,
  `calculateVariances`, `generateAdjustment`.
* `WarehouseReport` (unnamed source file, "part_004"): `handleSelectWarehouse`.

Modelling conventions:
* The Supabase relational store is modelled as an explicit `Store` record of a
  header list and a detail list; `crypto.randomUUID()` is modelled by a fresh
  natural-number counter carried in the store.
* JavaScript strings are Lean `String`s.  The SQL descending order used by the
  reference-number query and the JS string comparison are both code-unit
  lexicographic on the ASCII strings involved; they are modelled by the
  executable comparison `listLtb` below.
* `parseInt`, `split('-')` and `padStart(5, '0')` are modelled by the
  executable functions `parseIntJS`, `jsSplitDash` and `padStartZero`;
  JS `String(n)` for a natural number is `decStr`.  `parseIntJS` returns
  `none` where `parseInt` returns `NaN` (leading sign and whitespace handling
  is omitted: every string it is applied to here is a `split('-')` segment).
* JS truthiness of an optional string (empty string and null are falsy) is
  `strTruthy`; `a || b` on such values is `optOr` / `optNorm`.
* Dates in the snapshot view are modelled as naturals (only their ordering is
  used, via the SQL `order by transaction_date`); dates carried verbatim
  through headers stay `String`s.
-/

/-! ## JS / SQL string primitives -/

/-- The ASCII digit character for `d` (`0 ≤ d ≤ 9`). -/
def digitChar (d : Nat) : Char := Char.ofNat (48 + d)

/-- Decimal digit characters of `n`, most significant first, with explicit
fuel (the fuel `n + 1` used by `decStr` is always sufficient). -/
def decChars (fuel : Nat) (n : Nat) : List Char :=
  match fuel with
  | 0 => []
  | fuel + 1 => if n < 10 then [digitChar n] else decChars fuel (n / 10) ++ [digitChar (n % 10)]

/-- JS `String(n)` for a natural number: its decimal representation. -/
def decStr (n : Nat) : String := ⟨decChars (n + 1) n⟩

/-- Code-unit lexicographic comparison of character lists: the order used by
both JS string comparison and the SQL `order by` on the ASCII reference
numbers involved. -/
def listLtb : List Char → List Char → Bool
  | [], [] => false
  | [], _ :: _ => true
  | _ :: _, [] => false
  | a :: as, b :: bs =>
    if a.toNat < b.toNat then true
    else if b.toNat < a.toNat then false
    else listLtb as bs

/-- Lexicographic comparison of strings (see `listLtb`). -/
def strLtb (s t : String) : Bool := listLtb s.data t.data

/-- `s.startsWith p`, modelling the SQL `ilike 'p%'` filter (all reference
numbers and prefixes here are upper-case ASCII, so case-insensitivity is
immaterial). -/
def listStarts : List Char → List Char → Bool
  | [], _ => true
  | _ :: _, [] => false
  | p :: ps, c :: cs => p == c && listStarts ps cs

/-- String version of `listStarts`: does `s` start with `p`? -/
def strStarts (s p : String) : Bool := listStarts p.data s.data

/-- The numeric value of a list of decimal digit characters (big-endian). -/
def valD (l : List Char) : Nat := l.foldl (fun a c => a * 10 + (c.toNat - 48)) 0

/-- JS `parseInt(s)`: the numeric value of the longest leading run of decimal
digits, `none` (= `NaN`) when there is none. -/
def parseIntJS (s : String) : Option Nat :=
  let ds := s.data.takeWhile Char.isDigit
  if ds = [] then none else some (valD ds)

/-- JS `s.split('-')`, auxiliary on character lists (`cur` is the reversed
current segment). -/
def splitDashAux : List Char → List Char → List (List Char)
  | [], cur => [cur.reverse]
  | c :: rest, cur =>
    if c = '-' then cur.reverse :: splitDashAux rest []
    else splitDashAux rest (c :: cur)

/-- JS `s.split('-')`. -/
def jsSplitDash (s : String) : List String :=
  (splitDashAux s.data []).map fun l => ⟨l⟩

/-- JS `s.padStart(w, '0')`. -/
def padStartZero (s : String) (w : Nat) : String :=
  ⟨List.replicate (w - s.data.length) '0' ++ s.data⟩

/-- JS truthiness of a nullable string: null and the empty string are falsy. -/
def strTruthy : Option String → Bool
  | none => false
  | some s => s ≠ ""

/-- JS `a || b` where `a` is a nullable string and `b` a string. -/
def optOr (a : Option String) (b : String) : String :=
  match a with
  | some s => if s = "" then b else s
  | none => b

/-- JS `a || null` for a nullable string (used when inserting optional
columns). -/
def optNorm (a : Option String) : Option String :=
  if strTruthy a then a else none

/-- The step of the running-maximum fold below. -/
def maxStep (acc : Option String) (s : String) : Option String :=
  match acc with
  | none => some s
  | some m => if strLtb m s then some s else some m

/-- The maximum of a list of strings under `strLtb` (the single row returned
by `order('reference_number', descending).limit(1)`), `none` on the empty
list. -/
def maxStr (l : List String) : Option String :=
  l.foldl maxStep none

/-! ## Data model

Mirrors the `transaction_header` / `transaction_detail` schema and the
TypeScript record shapes.  Opaque uuids are modelled as naturals minted from
the store's counter. -/

/-- A `transaction_header` row. -/
structure Header where
  transaction_id : Nat
  transaction_type : String
  transaction_date : String
  warehouse : Option String
  reference_type : String
  reference_number : String
  shipment_carrier : Option String
  shipping_document : Option String
  customer_po : Option String
  customer_name : Option String
  comments : Option String
  related_transaction_id : Option Nat
deriving DecidableEq

/-- A `transaction_detail` row. -/
structure Detail where
  detail_id : Nat
  transaction_id : Nat
  item_name : String
  quantity : Int
  inventory_status : String
  status : String
  lot_number : Option String
  comments : Option String
deriving DecidableEq

/-- The relational store (plus the uuid supply). -/
structure Store where
  headers : List Header
  details : List Detail
  nextId : Nat
deriving DecidableEq

/-- Mint a fresh opaque id (models `crypto.randomUUID()`). -/
def Store.fresh (s : Store) : Nat × Store :=
  (s.nextId, { s with nextId := s.nextId + 1 })

/-- One entry of `TransactionFormData.items`.  `quantity` is `none` when the
form field is not a number (the code then stores `0`). -/
structure FormItem where
  item_name : String
  quantity : Option Int
  lot_number : Option String
  comments : Option String
deriving DecidableEq

/-- `TransactionFormData` as consumed by `createTransaction`. -/
structure TransactionFormData where
  type : String
  date : String
  warehouse : Option String
  referenceType : String
  status : String
  inventoryStatus : String
  items : List FormItem
  shipmentCarrier : Option String
  shippingDocument : Option String
  customerPO : Option String
  customerName : Option String
  comments : Option String
  relatedTransactionId : Option Nat
  transferToWarehouse : Option String
  transferToInventoryStatus : Option String
  transferDate : Option String
deriving DecidableEq

/-- `CountData`: one row of the physical count sheet. -/
structure CountData where
  itemName : String
  quantity : Int
  notes : String
deriving DecidableEq

/-- `Variance`: one row of the variance report. -/
structure Variance where
  itemName : String
  physicalCount : Int
  calculatedCount : Int
  variance : Int
deriving DecidableEq

/-- A row of the `transactions_inventory_snapshot_by_date` view as consumed by
the count workflow.  The view itself is database code not present under
`src/`; its shape is modelled from the spec (§3, §6): four bucket totals per
item and date.  `transaction_date` is modelled as a natural since only its
ordering is used. -/
structure SnapshotRow where
  item_name : String
  warehouse : String
  transaction_date : Nat
  onHandTotal : Int
  inboundTotal : Int
  scheduledOutboundTotal : Int
  futureInventoryTotal : Int
deriving DecidableEq

/-- A row of the `transactions_inventory_summary` view as consumed by the
warehouse report (`InventoryItem` in the report component). -/
structure SummaryRow where
  item : String
  warehouse : String
  on_hand_total : Int
  on_hand_stock : Int
  on_hand_consign : Int
  on_hand_hold : Int
  inbound_total : Int
  scheduled_outbound_total : Int
  future_inventory_total : Int
deriving DecidableEq

/-! ## Operations (translated from the source) -/

/-- `isStatusValidForType(status, transactionType)` from the transactions
hook: the status/type validity table. -/
def isStatusValidForType (status : String) (transactionType : String) : Bool :=
  if transactionType = "Inbound" then status == "Pending" || status == "Received"
  else if transactionType = "Outbound" then status == "Pending" || status == "Shipped"
  else if transactionType = "Adjustment" then status == "Pending" || status == "Completed"
  else true

/-- `getNextStatusForType(transactionType)`: the terminal status used by the
advance operation. -/
def getNextStatusForType (transactionType : String) : Option String :=
  if transactionType = "Inbound" then some "Received"
  else if transactionType = "Outbound" then some "Shipped"
  else if transactionType = "Adjustment" then some "Completed"
  else none

/-- `getTransactionType(transactionId)`: the owning header's type, falling
back to `"Adjustment"` when the `.single()` lookup fails (no row, or more
than one row). -/
def getTransactionType (store : Store) (transactionId : Nat) : String :=
  match store.headers.filter (fun h => h.transaction_id == transactionId) with
  | [h] => h.transaction_type
  | _ => "Adjustment"

/-- `updateTransactionDetail(transactionId, detail)`: validate the new status
against the owning header's type, then overwrite the mutable columns of the
row with the matching `detail_id`.  Returns the success flag and the store. -/
def updateTransactionDetail (store : Store) (transactionId : Nat) (detail : Detail) :
    Bool × Store :=
  let transactionType := getTransactionType store transactionId
  if !isStatusValidForType detail.status transactionType then (false, store)
  else
    (true,
      { store with
        details := store.details.map fun d =>
          if d.detail_id == detail.detail_id then
            { d with
              quantity := detail.quantity
              inventory_status := detail.inventory_status
              status := detail.status
              lot_number := detail.lot_number
              comments := detail.comments }
          else d })

/-- `advanceTransactionToNextStep(transaction)`: set every detail line of the
transaction that is currently `Pending` to the type's terminal status; fail
without touching the store when no terminal status is defined. -/
def advanceTransactionToNextStep (store : Store) (transaction : Header) : Bool × Store :=
  match getNextStatusForType transaction.transaction_type with
  | none => (false, store)
  | some nextStatus =>
    (true,
      { store with
        details := store.details.map fun d =>
          if d.transaction_id == transaction.transaction_id && d.status == "Pending" then
            { d with status := nextStatus }
          else d })

/-- The reference-number type prefix chosen by `createTransaction`. -/
def refPfx (t : String) : String :=
  if t = "Inbound" then "IB-" else if t = "Outbound" then "OB-" else "ADJ-"

/-- The `reference_number` values of the store filtered by the prefix
(`ilike 'pfx%'`). -/
def pfxRefs (store : Store) (pfx : String) : List String :=
  (store.headers.map (fun h => h.reference_number)).filter (fun r => strStarts r pfx)

/-- The sequence segment minted by `createTransaction`: `"00001"` when no
reference with the prefix exists, otherwise
`String(parseInt(max.split('-')[1]) + 1).padStart(5, '0')` — which is the
literal `"00NaN"` when the parse yields `NaN`. -/
def nextSequence (store : Store) (pfx : String) : String :=
  match maxStr (pfxRefs store pfx) with
  | none => "00001"
  | some r =>
    match parseIntJS ((jsSplitDash r).getD 1 "") with
    | none => "00NaN"
    | some lastNum => padStartZero (decStr (lastNum + 1)) 5

/-- `addBusinessDays(date, n)` lives in `utils/dateUtils`, which is not among
the provided source files.  Modelled from the spec: the transfer date defaults
to two business days after the primary date.  No claim constrains the value,
so the date arithmetic is represented by an injective tagging of the inputs. -/
def addBusinessDays (date : String) (n : Nat) : String :=
  date ++ "+" ++ decStr n ++ "bd"

/-- The `data.items.map(item => ({...}))` detail-row construction shared by
the primary insert and the transfer mirror insert of `createTransaction`:
one detail row per form item, with the given owning transaction, inventory
status and line status, quantities defaulting to `0` for non-numeric form
values, and fresh row ids minted from the store. -/
def mintDetails (transactionId : Nat) (invStatus lineStatus : String) :
    List FormItem → Store → List Detail × Store
  | [], s => ([], s)
  | item :: rest, s =>
    let (detailId, s1) := s.fresh
    let row : Detail :=
      { detail_id := detailId
        transaction_id := transactionId
        item_name := item.item_name
        quantity := item.quantity.getD 0
        inventory_status := invStatus
        status := lineStatus
        lot_number := optNorm item.lot_number
        comments := optNorm item.comments }
    let next := mintDetails transactionId invStatus lineStatus rest s1
    (row :: next.1, next.2)

/-- `createTransaction(data)`: validate the status, mint the next reference
number for the type's prefix, insert the header and its detail lines, and —
when the reference type is `"Transfer Order"` and a destination warehouse is
supplied — insert the mirrored Inbound header and detail lines.  Returns the
created header (or `none` on validation failure) and the store. -/
def createTransaction (store : Store) (data : TransactionFormData) :
    Option Header × Store :=
  if !isStatusValidForType data.status data.type then (none, store)
  else
    let pfx := refPfx data.type
    let sequence := nextSequence store pfx
    let referenceNumber := pfx ++ sequence
    let (transactionId, store1) := store.fresh
    let header : Header :=
      { transaction_id := transactionId
        transaction_type := data.type
        transaction_date := data.date
        warehouse := optNorm data.warehouse
        reference_type := data.referenceType
        reference_number := referenceNumber
        shipment_carrier := data.shipmentCarrier
        shipping_document := data.shippingDocument
        customer_po := data.customerPO
        customer_name := data.customerName
        comments := data.comments
        related_transaction_id := data.relatedTransactionId }
    let store2 := { store1 with headers := store1.headers ++ [header] }
    let minted := mintDetails transactionId data.inventoryStatus data.status data.items store2
    let store4 := { minted.2 with details := minted.2.details ++ minted.1 }
    if data.referenceType = "Transfer Order" ∧ strTruthy data.transferToWarehouse = true then
      let inboundReference := "IB-" ++ sequence
      let (inboundId, store5) := store4.fresh
      let transferDate := optOr data.transferDate (addBusinessDays data.date 2)
      let inboundHeader : Header :=
        { transaction_id := inboundId
          transaction_type := "Inbound"
          transaction_date := transferDate
          warehouse := data.transferToWarehouse
          reference_type := "Transfer Order"
          reference_number := inboundReference
          shipment_carrier := data.shipmentCarrier
          shipping_document := data.shippingDocument
          customer_po := none
          customer_name := none
          comments := data.comments
          related_transaction_id := some transactionId }
      let store6 := { store5 with headers := store5.headers ++ [inboundHeader] }
      let mintedInbound := mintDetails inboundId
        (optOr data.transferToInventoryStatus data.inventoryStatus) "Pending" data.items store6
      let store8 := { mintedInbound.2 with
        details := mintedInbound.2.details ++ mintedInbound.1 }
      (some header, store8)
    else
      (some header, store4)

/-- The 5-digit zero-padded decimal form of a sequence value: the shape
`String(k).padStart(5, '0')` that `createTransaction` mints (it exceeds five
characters once `k` exceeds `99999`). -/
def padRef (k : Nat) : String := padStartZero (decStr k) 5

/-- Well-formedness of the reference numbers of one prefix: every stored
reference with the prefix is `pfx ++ padRef k` for some `1 ≤ k ≤ m`, and `m`
itself is stored when positive (`m = 0` means no reference with the prefix
exists).  This is the shape every store reachable by non-transfer creates of
one type has, with `m` the numeric suffix of the maximum stored reference. -/
def refsWF (store : Store) (pfx : String) (m : Nat) : Prop :=
  m < 100000 ∧
  (0 < m → (pfx ++ padRef m) ∈ pfxRefs store pfx) ∧
  ∀ r ∈ pfxRefs store pfx, ∃ k, 1 ≤ k ∧ k ≤ m ∧ r = pfx ++ padRef k

/-- The store after `n` sequential `createTransaction` calls with the same
form data. -/
def createSeq (data : TransactionFormData) : Nat → Store → Store
  | 0, s => s
  | n + 1, s => createSeq data n (createTransaction s data).2

/-! ### Count workflow (`useInventoryCount.ts`) -/

/-- The step of the `reduce` in `fetchInitialInventory`: push the current row
unless a row with its item name was already kept (`findIndex === -1`). -/
def snapStep (acc : List SnapshotRow) (curr : SnapshotRow) : List SnapshotRow :=
  if acc.any (fun item => item.item_name == curr.item_name) then acc
  else acc ++ [curr]

/-- The `reduce` of `fetchInitialInventory`: keep, for each item name, the
first row of the (date-descending) snapshot list. -/
def latestSnapshots (snapshot : List SnapshotRow) : List SnapshotRow :=
  snapshot.foldl snapStep []

/-- The "active" filter of `fetchInitialInventory`: rows with a non-zero
`On Hand: Total`, `Inbound: Total` or `Scheduled Outbound: Total`. -/
def activeCountRows (snapshot : List SnapshotRow) : List SnapshotRow :=
  (latestSnapshots snapshot).filter fun item =>
    item.onHandTotal != 0 || item.inboundTotal != 0 || item.scheduledOutboundTotal != 0

/-- The count sheet pre-populated by `fetchInitialInventory`. -/
def initialCountData (snapshot : List SnapshotRow) : List CountData :=
  (activeCountRows snapshot).map fun item =>
    { itemName := item.item_name, quantity := 0, notes := "" }

/-- The variance computation of `calculateVariances`: physical count minus
the calculated `On Hand: Total` of the matching snapshot row (`0` when the
item has none). -/
def calculateVariances (countData : List CountData)
    (calculatedInventory : List SnapshotRow) : List Variance :=
  countData.map fun count =>
    let onHand :=
      match calculatedInventory.find? (fun row => row.item_name == count.itemName) with
      | some row => row.onHandTotal
      | none => 0
    { itemName := count.itemName
      physicalCount := count.quantity
      calculatedCount := onHand
      variance := count.quantity - onHand }

/-- The `.filter(v => v.variance !== 0).map(...)` detail-row construction of
`generateAdjustment` (applied to the already-filtered variance list): one
`Completed` / `Stock` detail row per variance, quantity `Math.abs(variance)`,
comment chosen by the sign of the variance. -/
def mintAdjDetails (adjustmentId : Nat) : List Variance → Store → List Detail × Store
  | [], s => ([], s)
  | v :: rest, s =>
    let (detailId, s1) := s.fresh
    let row : Detail :=
      { detail_id := detailId
        transaction_id := adjustmentId
        item_name := v.itemName
        quantity := Int.ofNat v.variance.natAbs
        inventory_status := "Stock"
        status := "Completed"
        lot_number := none
        comments := some (if v.variance > (0 : Int) then "Count overage"
          else "Count shortage") }
    let next := mintAdjDetails adjustmentId rest s1
    (row :: next.1, next.2)

/-- `generateAdjustment`: insert one Adjustment header (timestamp-based
`ADJ-COUNT-` reference), then insert one detail line per non-zero variance.
`nowMs` models `new Date().getTime()`.  Returns the adjustment id and the
store. -/
def generateAdjustment (store : Store) (selectedWarehouse selectedDate : String)
    (variances : List Variance) (nowMs : Nat) : Option Nat × Store :=
  if selectedWarehouse = "" ∨ selectedDate = "" ∨ variances.length = 0 then
    (none, store)
  else
    let (adjustmentId, store1) := store.fresh
    let header : Header :=
      { transaction_id := adjustmentId
        transaction_type := "Adjustment"
        transaction_date := selectedDate
        warehouse := some selectedWarehouse
        reference_type := "Inventory Count"
        reference_number := "ADJ-COUNT-" ++ decStr nowMs
        shipment_carrier := none
        shipping_document := none
        customer_po := none
        customer_name := none
        comments := some ("Inventory count adjustment for " ++ selectedWarehouse ++
          " as of " ++ selectedDate)
        related_transaction_id := none }
    let store2 := { store1 with headers := store1.headers ++ [header] }
    let minted := mintAdjDetails adjustmentId (variances.filter (fun v => v.variance != 0)) store2
    let store4 := { minted.2 with details := minted.2.details ++ minted.1 }
    (some adjustmentId, store4)

/-! ### Warehouse report (`WarehouseReport`) -/

/-- `handleSelectWarehouse(name)` applied to the summary view: the server-side
filters (`Warehouse = name` and the `.or(...gt.0...)` disjunction of strictly
positive buckets) followed by the client-side "all values 0" filter.  The
`order by Item` only permutes the rows and is omitted. -/
def handleSelectWarehouse (rows : List SummaryRow) (name : String) : List SummaryRow :=
  ((rows.filter fun r => r.warehouse == name).filter fun r =>
      r.on_hand_total > 0 || r.inbound_total > 0 ||
      r.scheduled_outbound_total > 0 || r.future_inventory_total > 0).filter
    fun row =>
      row.on_hand_total != 0 || row.inbound_total != 0 ||
      row.scheduled_outbound_total != 0 || row.future_inventory_total != 0

/-! ## Concrete fixtures

Concrete stores, form data and rows used by the witness and counterexample
theorems below. -/

/-- The empty store. -/
def wStore : Store := { headers := [], details := [], nextId := 0 }

/-- A stored Inbound header whose reference number carries the maximal
five-digit suffix. -/
def wHeader99999 : Header :=
  { transaction_id := 100
    transaction_type := "Inbound"
    transaction_date := "2024-01-01"
    warehouse := some "W1"
    reference_type := "Purchase Order"
    reference_number := "IB-99999"
    shipment_carrier := none
    shipping_document := none
    customer_po := none
    customer_name := none
    comments := none
    related_transaction_id := none }

/-- A store holding only `wHeader99999`. -/
def wStore99999 : Store := { headers := [wHeader99999], details := [], nextId := 1 }

/-- A plain (non-transfer) Inbound create request. -/
def wInboundData : TransactionFormData :=
  { type := "Inbound"
    date := "2024-06-01"
    warehouse := some "W1"
    referenceType := "Purchase Order"
    status := "Pending"
    inventoryStatus := "Stock"
    items := [{ item_name := "Item A", quantity := some 5, lot_number := none, comments := none }]
    shipmentCarrier := none
    shippingDocument := none
    customerPO := none
    customerName := none
    comments := none
    relatedTransactionId := none
    transferToWarehouse := none
    transferToInventoryStatus := none
    transferDate := none }

/-- An Outbound transfer-order create request with a destination warehouse
and two items. -/
def wTransferData : TransactionFormData :=
  { type := "Outbound"
    date := "2024-06-01"
    warehouse := some "W1"
    referenceType := "Transfer Order"
    status := "Shipped"
    inventoryStatus := "Stock"
    items := [{ item_name := "Item A", quantity := some 5, lot_number := none, comments := none },
      { item_name := "Item B", quantity := none, lot_number := some "L1", comments := none }]
    shipmentCarrier := none
    shippingDocument := none
    customerPO := none
    customerName := none
    comments := none
    relatedTransactionId := none
    transferToWarehouse := some "W2"
    transferToInventoryStatus := none
    transferDate := none }

/-- An Inbound create request carrying a status invalid for Inbound. -/
def wInvalidData : TransactionFormData :=
  { wInboundData with status := "Completed" }

/-- A detail row carrying status `Shipped` (invalid for Adjustment). -/
def wShippedDetail : Detail :=
  { detail_id := 50
    transaction_id := 5
    item_name := "Item A"
    quantity := 5
    inventory_status := "Stock"
    status := "Shipped"
    lot_number := none
    comments := none }

/-- A detail row carrying status `Pending`. -/
def wPendingDetail : Detail :=
  { wShippedDetail with detail_id := 51, status := "Pending" }

/-- A store with detail lines of two transactions in mixed statuses. -/
def wAdvStore : Store :=
  { headers := []
    details :=
      [{ detail_id := 1, transaction_id := 7, item_name := "Item A", quantity := 5, inventory_status := "Stock", status := "Pending", lot_number := none, comments := none },
       { detail_id := 2, transaction_id := 7, item_name := "Item B", quantity := 3, inventory_status := "Stock", status := "Shipped", lot_number := none, comments := none },
       { detail_id := 3, transaction_id := 8, item_name := "Item C", quantity := 2, inventory_status := "Stock", status := "Pending", lot_number := none, comments := none }]
    nextId := 4 }

/-- An Outbound header owning transaction 7 of `wAdvStore`. -/
def wTxOut : Header :=
  { wHeader99999 with transaction_id := 7, transaction_type := "Outbound", reference_number := "OB-00001" }

/-- A header of an unrecognized transaction type. -/
def wTxUnknown : Header :=
  { wHeader99999 with transaction_id := 9, transaction_type := "Transfer", reference_number := "TR-00001" }

/-- An Outbound header owning no detail lines of `wAdvStore`. -/
def wTxEmpty : Header :=
  { wTxOut with transaction_id := 10 }

/-- A physical count sheet matching the variance example of the spec. -/
def wCountData : List CountData :=
  [{ itemName := "A", quantity := 45, notes := "" },
   { itemName := "B", quantity := 50, notes := "" },
   { itemName := "C", quantity := 53, notes := "" }]

/-- Calculated snapshot rows with on-hand 50 for the three items. -/
def wInvRows : List SnapshotRow :=
  [{ item_name := "A", warehouse := "W1", transaction_date := 3, onHandTotal := 50,
     inboundTotal := 0, scheduledOutboundTotal := 0, futureInventoryTotal := 0 },
   { item_name := "B", warehouse := "W1", transaction_date := 3, onHandTotal := 50,
     inboundTotal := 0, scheduledOutboundTotal := 0, futureInventoryTotal := 0 },
   { item_name := "C", warehouse := "W1", transaction_date := 3, onHandTotal := 50,
     inboundTotal := 0, scheduledOutboundTotal := 0, futureInventoryTotal := 0 }]

/-- A date-descending snapshot list with a shadowed older row for item A. -/
def wSortedRows : List SnapshotRow :=
  [{ item_name := "A", warehouse := "W", transaction_date := 5, onHandTotal := 10,
     inboundTotal := 0, scheduledOutboundTotal := 0, futureInventoryTotal := 0 },
   { item_name := "A", warehouse := "W", transaction_date := 3, onHandTotal := 7,
     inboundTotal := 0, scheduledOutboundTotal := 0, futureInventoryTotal := 0 },
   { item_name := "B", warehouse := "W", transaction_date := 2, onHandTotal := 0,
     inboundTotal := 4, scheduledOutboundTotal := 0, futureInventoryTotal := 0 }]

/-- The most recent snapshot row for item A (the head of `wSortedRows`). -/
def wRowA : SnapshotRow :=
  { item_name := "A", warehouse := "W", transaction_date := 5, onHandTotal := 10,
    inboundTotal := 0, scheduledOutboundTotal := 0, futureInventoryTotal := 0 }

/-- A summary row with a strictly positive bucket. -/
def wSummaryRow : SummaryRow :=
  { item := "X", warehouse := "W", on_hand_total := 4, on_hand_stock := 4,
    on_hand_consign := 0, on_hand_hold := 0, inbound_total := 0,
    scheduled_outbound_total := 0, future_inventory_total := 0 }

/-- A single all-zero variance. -/
def wZeroVariances : List Variance :=
  [{ itemName := "A", physicalCount := 5, calculatedCount := 5, variance := 0 }]

/-! ## Claim theorems -/

/-- C1: for every (status, type) pair, `isStatusValidForType` returns true iff
the pair is allowed by the validity table — Inbound accepts exactly Pending
and Received, Outbound exactly Pending and Shipped, Adjustment exactly
Pending and Completed, and any unrecognized type accepts every status. -/
theorem claim_C1_status_validity (s t : String) :
    isStatusValidForType s t = true ↔
      ((t = "Inbound" ∧ (s = "Pending" ∨ s = "Received")) ∨
       (t = "Outbound" ∧ (s = "Pending" ∨ s = "Shipped")) ∨
       (t = "Adjustment" ∧ (s = "Pending" ∨ s = "Completed")) ∨
       (t ≠ "Inbound" ∧ t ≠ "Outbound" ∧ t ≠ "Adjustment")) := by
  unfold isStatusValidForType
  split_ifs with h1 h2 h3 <;> simp_all

/-- C7: a create with a status invalid for the chosen type, and a detail
update with a status invalid for the owning header's type, both return
failure with the store untouched. -/
theorem claim_C7_invalid_status_rejected (store : Store) (data : TransactionFormData)
    (transactionId : Nat) (detail : Detail)
    (hc : isStatusValidForType data.status data.type = false)
    (hu : isStatusValidForType detail.status (getTransactionType store transactionId) = false) :
    createTransaction store data = (none, store) ∧
    updateTransactionDetail store transactionId detail = (false, store) := by
  constructor
  · unfold createTransaction
    rw [hc]
    rfl
  · simp [updateTransactionDetail, hu]

/-- C10: when no header with the given transaction id exists, the type lookup
falls back to `"Adjustment"`, so a detail update is accepted exactly for the
statuses Pending and Completed. -/
theorem claim_C10_fallback_adjustment (store : Store) (transactionId : Nat) (detail : Detail)
    (hmiss : store.headers.filter (fun h => h.transaction_id == transactionId) = []) :
    getTransactionType store transactionId = "Adjustment" ∧
    ((updateTransactionDetail store transactionId detail).1 = true ↔
      detail.status = "Pending" ∨ detail.status = "Completed") := by
  have ht : getTransactionType store transactionId = "Adjustment" := by
    unfold getTransactionType
    rw [hmiss]
  refine ⟨ht, ?_⟩
  by_cases h : isStatusValidForType detail.status "Adjustment" = true
  · have h2 := h
    simp [isStatusValidForType] at h2
    simp [updateTransactionDetail, ht, h, h2]
  · have hfalse : isStatusValidForType detail.status "Adjustment" = false :=
      eq_false_of_ne_true h
    have h2 := hfalse
    simp [isStatusValidForType] at h2
    simp [updateTransactionDetail, ht, hfalse, h2]

/-- C5: advancing sets exactly the currently-Pending detail lines of the
transaction to the type's terminal status and leaves every other line (and
the headers) unchanged; with no Pending lines it is a no-op that still
reports success; with no terminal status defined it fails without mutating
anything. -/
theorem claim_C5_advance_frame (store : Store) (tx : Header) :
    (∀ nextStatus, getNextStatusForType tx.transaction_type = some nextStatus →
      (advanceTransactionToNextStep store tx).1 = true ∧
      (advanceTransactionToNextStep store tx).2.headers = store.headers ∧
      List.Forall₂
        (fun d d2 =>
          (d.transaction_id = tx.transaction_id ∧ d.status = "Pending" →
            d2 = { d with status := nextStatus }) ∧
          (¬(d.transaction_id = tx.transaction_id ∧ d.status = "Pending") → d2 = d))
        store.details (advanceTransactionToNextStep store tx).2.details) ∧
    ((∀ d ∈ store.details, d.transaction_id = tx.transaction_id → d.status ≠ "Pending") →
      ∀ nextStatus, getNextStatusForType tx.transaction_type = some nextStatus →
      advanceTransactionToNextStep store tx = (true, store)) ∧
    (getNextStatusForType tx.transaction_type = none →
      advanceTransactionToNextStep store tx = (false, store)) := by
  refine ⟨?_, ?_, ?_⟩
  · intro nextStatus hnext
    simp only [advanceTransactionToNextStep, hnext]
    refine ⟨trivial, trivial, ?_⟩
    rw [show (store.details.map fun d =>
        if d.transaction_id == tx.transaction_id && d.status == "Pending" then
          { d with status := nextStatus }
        else d) = List.map (fun d =>
        if d.transaction_id == tx.transaction_id && d.status == "Pending" then
          { d with status := nextStatus }
        else d) store.details from rfl]
    rw [List.forall₂_map_right_iff]
    rw [List.forall₂_same]
    intro d _
    by_cases hcond : d.transaction_id = tx.transaction_id ∧ d.status = "Pending"
    · have hb : (d.transaction_id == tx.transaction_id && d.status == "Pending") = true := by
        simp [hcond.1, hcond.2]
      constructor
      · intro _
        simp [hb]
      · intro hn
        exact absurd hcond hn
    · have hb : (d.transaction_id == tx.transaction_id && d.status == "Pending") = false := by
        rcases not_and_or.mp hcond with h | h <;> simp [h]
      constructor
      · intro hc
        exact absurd hc hcond
      · intro _
        simp [hb]
  · intro hnp nextStatus hnext
    simp only [advanceTransactionToNextStep, hnext]
    have hmap : (store.details.map fun d =>
        if d.transaction_id == tx.transaction_id && d.status == "Pending" then
          { d with status := nextStatus }
        else d) = store.details := by
      have := List.map_congr_left (l := store.details)
        (f := fun d =>
          if d.transaction_id == tx.transaction_id && d.status == "Pending" then
            { d with status := nextStatus }
          else d)
        (g := id)
        (fun d hd => by
          have hb : (d.transaction_id == tx.transaction_id && d.status == "Pending") = false := by
            by_cases hid : d.transaction_id = tx.transaction_id
            · have := hnp d hd hid
              simp [this]
            · simp [hid]
          simp [hb])
      simpa using this
    rw [hmap]
  · intro hnone
    simp [advanceTransactionToNextStep, hnone]

/-- Membership through the snapshot fold: a kept row was already in the
accumulator, or comes from the input and its item name is new to the
accumulator. -/
theorem snapFold_mem (l : List SnapshotRow) : ∀ (acc : List SnapshotRow) (r : SnapshotRow),
    r ∈ l.foldl snapStep acc →
    r ∈ acc ∨ (r ∈ l ∧ ∀ x ∈ acc, x.item_name ≠ r.item_name) := by
  induction l with
  | nil =>
    intro acc r h
    exact Or.inl h
  | cons c tl ih =>
    intro acc r h
    rw [List.foldl_cons] at h
    by_cases hany : acc.any (fun item => item.item_name == c.item_name) = true
    · rw [show snapStep acc c = acc from if_pos hany] at h
      rcases ih acc r h with h1 | ⟨h2, h3⟩
      · exact Or.inl h1
      · exact Or.inr ⟨List.mem_cons_of_mem _ h2, h3⟩
    · rw [show snapStep acc c = acc ++ [c] from if_neg hany] at h
      have hnone : ∀ x ∈ acc, x.item_name ≠ c.item_name := by
        intro x hx
        have := List.any_eq_false.mp (eq_false_of_ne_true hany) x hx
        simpa using this
      rcases ih (acc ++ [c]) r h with h1 | ⟨h2, h3⟩
      · rcases List.mem_append.mp h1 with ha | hc
        · exact Or.inl ha
        · have hrc : r = c := by simpa using hc
          subst hrc
          exact Or.inr ⟨List.mem_cons_self _ _, hnone⟩
      · refine Or.inr ⟨List.mem_cons_of_mem _ h2, fun x hx => ?_⟩
        exact h3 x (List.mem_append_left _ hx)

/-- Coverage through the snapshot fold: every item name present in the
accumulator or the input has a representative in the result. -/
theorem snapFold_cover (l : List SnapshotRow) : ∀ (acc : List SnapshotRow) (n : String),
    ((∃ x ∈ acc, x.item_name = n) ∨ (∃ x ∈ l, x.item_name = n)) →
    ∃ x ∈ l.foldl snapStep acc, x.item_name = n := by
  induction l with
  | nil =>
    intro acc n h
    rcases h with h | h
    · exact h
    · simp at h
  | cons c tl ih =>
    intro acc n h
    rw [List.foldl_cons]
    by_cases hany : acc.any (fun item => item.item_name == c.item_name) = true
    · rw [show snapStep acc c = acc from if_pos hany]
      rcases h with h | h
      · exact ih acc n (Or.inl h)
      · rcases h with ⟨x, hx, hxn⟩
        rcases List.mem_cons.mp hx with hxc | hxtl
        · subst hxc
          rcases List.any_eq_true.mp hany with ⟨y, hy, hyn⟩
          refine ih acc n (Or.inl ⟨y, hy, ?_⟩)
          rw [eq_of_beq hyn, hxn]
        · exact ih acc n (Or.inr ⟨x, hxtl, hxn⟩)
    · rw [show snapStep acc c = acc ++ [c] from if_neg hany]
      rcases h with h | h
      · rcases h with ⟨x, hx, hxn⟩
        exact ih _ n (Or.inl ⟨x, List.mem_append_left _ hx, hxn⟩)
      · rcases h with ⟨x, hx, hxn⟩
        rcases List.mem_cons.mp hx with hxc | hxtl
        · subst hxc
          exact ih _ n (Or.inl ⟨x, by simp, hxn⟩)
        · exact ih _ n (Or.inr ⟨x, hxtl, hxn⟩)

/-- Name-disjointness through the snapshot fold: the result holds at most one
row per item name. -/
theorem snapFold_nodup (l : List SnapshotRow) : ∀ (acc : List SnapshotRow),
    acc.Pairwise (fun a b => a.item_name ≠ b.item_name) →
    (l.foldl snapStep acc).Pairwise (fun a b => a.item_name ≠ b.item_name) := by
  induction l with
  | nil =>
    intro acc h
    exact h
  | cons c tl ih =>
    intro acc h
    rw [List.foldl_cons]
    by_cases hany : acc.any (fun item => item.item_name == c.item_name) = true
    · rw [show snapStep acc c = acc from if_pos hany]
      exact ih acc h
    · rw [show snapStep acc c = acc ++ [c] from if_neg hany]
      refine ih _ ?_
      rw [List.pairwise_append]
      refine ⟨h, List.pairwise_singleton _ _, ?_⟩
      intro x hx y hy
      have hyc : y = c := by simpa using hy
      subst hyc
      have := List.any_eq_false.mp (eq_false_of_ne_true hany) x hx
      simpa using this

/-- Date-maximality through the snapshot fold: when the input is sorted by
date descending and the accumulator already dominates the input on shared
names, every kept row dominates every input row of the same name. -/
theorem snapFold_max (l : List SnapshotRow) : ∀ (acc : List SnapshotRow),
    l.Pairwise (fun a b => b.transaction_date ≤ a.transaction_date) →
    (∀ x ∈ acc, ∀ y ∈ l, y.item_name = x.item_name → y.transaction_date ≤ x.transaction_date) →
    ∀ r ∈ l.foldl snapStep acc, ∀ y ∈ l,
      y.item_name = r.item_name → y.transaction_date ≤ r.transaction_date := by
  induction l with
  | nil =>
    intro acc _ _ r _ y hy
    simp at hy
  | cons c tl ih =>
    intro acc hsort hdom r hr y hy hname
    rw [List.foldl_cons] at hr
    have hsort2 := (List.pairwise_cons.mp hsort).2
    have hhead := (List.pairwise_cons.mp hsort).1
    by_cases hany : acc.any (fun item => item.item_name == c.item_name) = true
    · rw [show snapStep acc c = acc from if_pos hany] at hr
      have hdom2 : ∀ x ∈ acc, ∀ z ∈ tl, z.item_name = x.item_name →
          z.transaction_date ≤ x.transaction_date := by
        intro x hx z hz
        exact hdom x hx z (List.mem_cons_of_mem _ hz)
      rcases List.mem_cons.mp hy with hyc | hytl
      · subst hyc
        rcases snapFold_mem tl acc r hr with hracc | ⟨_, hnew⟩
        · exact hdom r hracc y (List.mem_cons_self _ _) hname
        · rcases List.any_eq_true.mp hany with ⟨x, hx, hxn⟩
          exact absurd (hname ▸ eq_of_beq hxn) (hnew x hx)
      · exact ih acc hsort2 hdom2 r hr y hytl hname
    · rw [show snapStep acc c = acc ++ [c] from if_neg hany] at hr
      have hdom2 : ∀ x ∈ acc ++ [c], ∀ z ∈ tl, z.item_name = x.item_name →
          z.transaction_date ≤ x.transaction_date := by
        intro x hx z hz hzn
        rcases List.mem_append.mp hx with hxa | hxc
        · exact hdom x hxa z (List.mem_cons_of_mem _ hz) hzn
        · have hxc2 : x = c := by simpa using hxc
          subst hxc2
          exact hhead z hz
      rcases List.mem_cons.mp hy with hyc | hytl
      · rcases snapFold_mem tl (acc ++ [c]) r hr with hracc | ⟨_, hnew⟩
        · rcases List.mem_append.mp hracc with hra | hrc
          · exact hdom r hra y hy hname
          · have hrc2 : r = c := by simpa using hrc
            rw [hyc, hrc2]
        · exact absurd (by rw [← hyc]; exact hname) (hnew c (by simp))
      · exact ih _ hsort2 hdom2 r hr y hytl hname

/-- C6: on a date-descending snapshot list, the latest-snapshot dedup keeps,
for each item, exactly one row — an original input row whose date is at least
that of every other row for the same item (last-write-wins, not summed). -/
theorem claim_C6_latest_snapshot_wins (rows : List SnapshotRow)
    (hsort : rows.Pairwise (fun a b => b.transaction_date ≤ a.transaction_date)) :
    (latestSnapshots rows).Pairwise (fun a b => a.item_name ≠ b.item_name) ∧
    (∀ r ∈ latestSnapshots rows, r ∈ rows ∧
      ∀ y ∈ rows, y.item_name = r.item_name → y.transaction_date ≤ r.transaction_date) ∧
    (∀ r ∈ rows, ∃ x ∈ latestSnapshots rows, x.item_name = r.item_name) := by
  refine ⟨?_, ?_, ?_⟩
  · exact snapFold_nodup rows [] (List.Pairwise.nil)
  · intro r hr
    have hmem := snapFold_mem rows [] r hr
    have hmax := snapFold_max rows [] hsort (by intro x hx; simp at hx) r hr
    rcases hmem with h | ⟨h, _⟩
    · simp at h
    · exact ⟨h, hmax⟩
  · intro r hr
    exact snapFold_cover rows [] r.item_name (Or.inr ⟨r, hr, rfl⟩)

/-- The adjustment detail minting leaves the headers and details of the store
untouched (it only consumes ids). -/
theorem mintAdjDetails_store (adjId : Nat) (vs : List Variance) : ∀ (s : Store),
    (mintAdjDetails adjId vs s).2.headers = s.headers ∧
    (mintAdjDetails adjId vs s).2.details = s.details := by
  induction vs with
  | nil =>
    intro s
    exact ⟨rfl, rfl⟩
  | cons v rest ih =>
    intro s
    simpa [mintAdjDetails, Store.fresh] using ih _

/-- Shape of the rows produced by the adjustment detail minting. -/
theorem mintAdjDetails_rows (adjId : Nat) (vs : List Variance) : ∀ (s : Store),
    List.Forall₂
      (fun v row =>
        row.transaction_id = adjId ∧
        row.item_name = v.itemName ∧
        row.quantity = Int.ofNat v.variance.natAbs ∧
        row.inventory_status = "Stock" ∧
        row.status = "Completed" ∧
        row.comments = some (if v.variance > (0 : Int) then "Count overage"
          else "Count shortage"))
      vs (mintAdjDetails adjId vs s).1 := by
  induction vs with
  | nil =>
    intro s
    exact List.Forall₂.nil
  | cons v rest ih =>
    intro s
    exact List.Forall₂.cons ⟨rfl, rfl, rfl, rfl, rfl, rfl⟩ (ih _)

/-- Strengthen a pointwise relation between lists using a predicate that
holds on every left element. -/
theorem forall₂_strengthen {α β : Type} {R S : α → β → Prop} {P : α → Prop} :
    ∀ {l : List α} {m : List β}, List.Forall₂ R l m → (∀ a ∈ l, P a) →
    (∀ a b, R a b → P a → S a b) → List.Forall₂ S l m := by
  intro l m h
  induction h with
  | nil =>
    intro _ _
    exact List.Forall₂.nil
  | cons hab _ ih =>
    intro hP hRS
    exact List.Forall₂.cons (hRS _ _ hab (hP _ (List.mem_cons_self _ _)))
      (ih (fun a ha => hP a (List.mem_cons_of_mem _ ha)) hRS)

/-- Every variance produced by `calculateVariances` is the signed difference
between its physical count and its calculated on-hand figure. -/
theorem calculateVariances_diff (countData : List CountData) (inv : List SnapshotRow) :
    ∀ v ∈ calculateVariances countData inv,
      v.variance = v.physicalCount - v.calculatedCount := by
  intro v hv
  simp only [calculateVariances, List.mem_map] at hv
  obtain ⟨count, _, rfl⟩ := hv
  rfl

/-- C9: with a warehouse and date selected, a non-empty variance list whose
variances are all zero still inserts the Adjustment header (with its
timestamp-based `ADJ-COUNT` reference) while inserting zero detail lines;
only an empty variance list makes `generateAdjustment` return without
writing anything. -/
theorem claim_C9_all_zero_variances (store : Store) (w d : String)
    (vs : List Variance) (now : Nat) (hw : w ≠ "") (hd : d ≠ "")
    (hall : ∀ v ∈ vs, v.variance = 0) :
    (vs ≠ [] →
      (generateAdjustment store w d vs now).1.isSome = true ∧
      (∃ hdr, (generateAdjustment store w d vs now).2.headers = store.headers ++ [hdr] ∧
        hdr.transaction_type = "Adjustment" ∧
        hdr.reference_number = "ADJ-COUNT-" ++ decStr now) ∧
      (generateAdjustment store w d vs now).2.details = store.details) ∧
    (vs = [] → generateAdjustment store w d vs now = (none, store)) := by
  constructor
  · intro hne
    have hcond : ¬(w = "" ∨ d = "" ∨ vs.length = 0) := by
      push_neg
      exact ⟨hw, hd, by simpa using hne⟩
    have hfilter : vs.filter (fun v => v.variance != 0) = [] := by
      rw [List.filter_eq_nil_iff]
      intro v hv
      simp [hall v hv]
    unfold generateAdjustment
    rw [if_neg hcond]
    simp only [hfilter, Store.fresh]
    refine ⟨rfl, ⟨_, rfl, rfl, rfl⟩, ?_⟩
    simp [mintAdjDetails]
  · intro hnil
    subst hnil
    unfold generateAdjustment
    rw [if_pos (by simp)]

/-- C4: generating an adjustment from calculated variances produces one
Adjustment header, and detail lines exactly for the non-zero variances: each
line carries the absolute value of (physical count − calculated on-hand) as
its quantity, status `Completed`, inventory status `Stock`, and the comment
chosen by the sign of that difference. -/
theorem claim_C4_adjustment_from_variances (store : Store) (w d : String)
    (countData : List CountData) (inv : List SnapshotRow) (now : Nat)
    (hw : w ≠ "") (hd : d ≠ "")
    (hne : calculateVariances countData inv ≠ []) :
    ∃ hdr newRows,
      (generateAdjustment store w d (calculateVariances countData inv) now).1.isSome = true ∧
      (generateAdjustment store w d (calculateVariances countData inv) now).2.headers =
        store.headers ++ [hdr] ∧
      hdr.transaction_type = "Adjustment" ∧
      (generateAdjustment store w d (calculateVariances countData inv) now).2.details =
        store.details ++ newRows ∧
      List.Forall₂
        (fun v row =>
          row.item_name = v.itemName ∧
          row.quantity = Int.ofNat (v.physicalCount - v.calculatedCount).natAbs ∧
          row.status = "Completed" ∧
          row.inventory_status = "Stock" ∧
          row.comments = some (if v.physicalCount - v.calculatedCount > (0 : Int) then
            "Count overage" else "Count shortage"))
        ((calculateVariances countData inv).filter (fun v => v.variance != 0)) newRows := by
  have hcond : ¬(w = "" ∨ d = "" ∨ (calculateVariances countData inv).length = 0) := by
    push_neg
    exact ⟨hw, hd, by simpa using hne⟩
  unfold generateAdjustment
  rw [if_neg hcond]
  simp only [Store.fresh]
  rw [(mintAdjDetails_store _ _ _).1, (mintAdjDetails_store _ _ _).2]
  refine ⟨_, _, rfl, rfl, rfl, rfl, ?_⟩
  · refine forall₂_strengthen (mintAdjDetails_rows _ _ _)
      (fun v hv => calculateVariances_diff countData inv v (List.mem_of_mem_filter hv))
      ?_
    intro v row hR hP
    exact ⟨hR.2.1, hP ▸ hR.2.2.1, hR.2.2.2.2.1, hR.2.2.2.1, hP ▸ hR.2.2.2.2.2⟩

/-- The detail minting of `createTransaction` leaves the headers of the store
untouched. -/
theorem mintDetails_headers (txId : Nat) (inv st : String) (items : List FormItem) :
    ∀ s : Store, (mintDetails txId inv st items s).2.headers = s.headers := by
  induction items with
  | nil =>
    intro s
    rfl
  | cons item rest ih =>
    intro s
    simpa [mintDetails, Store.fresh] using ih _

/-- The detail minting of `createTransaction` leaves the details of the store
untouched. -/
theorem mintDetails_details (txId : Nat) (inv st : String) (items : List FormItem) :
    ∀ s : Store, (mintDetails txId inv st items s).2.details = s.details := by
  induction items with
  | nil =>
    intro s
    rfl
  | cons item rest ih =>
    intro s
    simpa [mintDetails, Store.fresh] using ih _

/-- Shape of the rows produced by the detail minting of `createTransaction`. -/
theorem mintDetails_rows (txId : Nat) (inv st : String) (items : List FormItem) :
    ∀ s : Store,
    List.Forall₂
      (fun item row =>
        row.transaction_id = txId ∧
        row.item_name = item.item_name ∧
        row.quantity = item.quantity.getD 0 ∧
        row.inventory_status = inv ∧
        row.status = st ∧
        row.lot_number = optNorm item.lot_number ∧
        row.comments = optNorm item.comments)
      items (mintDetails txId inv st items s).1 := by
  induction items with
  | nil =>
    intro s
    exact List.Forall₂.nil
  | cons item rest ih =>
    intro s
    exact List.Forall₂.cons ⟨rfl, rfl, rfl, rfl, rfl, rfl, rfl⟩ (ih _)

/-- C3: a successful create whose reference type is "Transfer Order" and
which supplies a destination warehouse leaves the store with two headers:
the primary one (carrying the given type, with the given status on its
lines) and a mirrored Inbound header at the destination warehouse whose
reference number shares the primary's sequence segment under the `IB-`
prefix, whose back-reference is the primary's id, and whose detail lines
clone the primary's items with status forced to `Pending` and inventory
status optionally redirected by the transfer override. -/
theorem claim_C3_transfer_mirror (store : Store) (data : TransactionFormData)
    (hval : isStatusValidForType data.status data.type = true)
    (href : data.referenceType = "Transfer Order")
    (hw : strTruthy data.transferToWarehouse = true) :
    ∃ hdr inb,
      (createTransaction store data).1 = some hdr ∧
      (createTransaction store data).2.headers = store.headers ++ [hdr] ++ [inb] ∧
      hdr.transaction_type = data.type ∧
      inb.transaction_type = "Inbound" ∧
      inb.warehouse = data.transferToWarehouse ∧
      inb.related_transaction_id = some hdr.transaction_id ∧
      (∃ seq, hdr.reference_number = refPfx data.type ++ seq ∧
        inb.reference_number = "IB-" ++ seq) ∧
      ∃ primRows inbRows,
        (createTransaction store data).2.details = store.details ++ primRows ++ inbRows ∧
        List.Forall₂
          (fun item row =>
            row.transaction_id = hdr.transaction_id ∧
            row.item_name = item.item_name ∧
            row.quantity = item.quantity.getD 0 ∧
            row.status = data.status)
          data.items primRows ∧
        List.Forall₂
          (fun item row =>
            row.transaction_id = inb.transaction_id ∧
            row.item_name = item.item_name ∧
            row.quantity = item.quantity.getD 0 ∧
            row.status = "Pending" ∧
            row.inventory_status = optOr data.transferToInventoryStatus data.inventoryStatus)
          data.items inbRows := by
  unfold createTransaction
  rw [if_neg (by simp [hval])]
  simp only [Store.fresh]
  rw [if_pos ⟨href, hw⟩]
  simp only [Store.fresh, mintDetails_headers, mintDetails_details]
  refine ⟨_, _, rfl, rfl, rfl, rfl, rfl, rfl, ⟨_, rfl, rfl⟩, _, _, rfl, ?_, ?_⟩
  · exact List.Forall₂.imp
      (fun a b hR => ⟨hR.1, hR.2.1, hR.2.2.1, hR.2.2.2.2.1⟩)
      (mintDetails_rows _ _ _ _ _)
  · exact List.Forall₂.imp
      (fun a b hR => ⟨hR.1, hR.2.1, hR.2.2.1, hR.2.2.2.2.1, hR.2.2.2.1⟩)
      (mintDetails_rows _ _ _ _ _)

/-- C8 counterexample: a summary row whose only non-zero bucket is negative
(on-hand −1) is excluded from the warehouse report, although the claim says
any row with a non-zero bucket — including a negative one — is retained. -/
theorem claim_C8_counterexample :
    ({ item := "X", warehouse := "W", on_hand_total := -1, on_hand_stock := 0,
       on_hand_consign := 0, on_hand_hold := 0, inbound_total := 0,
       scheduled_outbound_total := 0, future_inventory_total := 0 } :
        SummaryRow).on_hand_total ≠ 0 ∧
    handleSelectWarehouse
      [{ item := "X", warehouse := "W", on_hand_total := -1, on_hand_stock := 0,
         on_hand_consign := 0, on_hand_hold := 0, inbound_total := 0,
         scheduled_outbound_total := 0, future_inventory_total := 0 }] "W" = [] := by
  decide

/-- C8 (amended): a deduplicated snapshot row enters the count
pre-population exactly when one of its on-hand, inbound or
scheduled-outbound totals is non-zero (the future-inventory bucket is not
consulted there), and a summary row enters the warehouse report exactly
when its warehouse matches and at least one of its four buckets is strictly
positive. -/
theorem claim_C8_active_row_filters (rows : List SnapshotRow)
    (summaries : List SummaryRow) (name : String) :
    (∀ r ∈ latestSnapshots rows,
      (r ∈ activeCountRows rows ↔
        (r.onHandTotal ≠ 0 ∨ r.inboundTotal ≠ 0 ∨ r.scheduledOutboundTotal ≠ 0))) ∧
    (∀ r : SummaryRow,
      (r ∈ handleSelectWarehouse summaries name ↔
        (r ∈ summaries ∧ r.warehouse = name ∧
          (r.on_hand_total > 0 ∨ r.inbound_total > 0 ∨
            r.scheduled_outbound_total > 0 ∨ r.future_inventory_total > 0)))) := by
  constructor
  · intro r hr
    simp only [activeCountRows, List.mem_filter, hr, true_and, Bool.or_eq_true,
      bne_iff_ne, ne_eq]
    tauto
  · intro r
    unfold handleSelectWarehouse
    simp only [List.mem_filter, Bool.or_eq_true, decide_eq_true_eq, bne_iff_ne,
      ne_eq, beq_iff_eq]
    constructor
    · intro h
      refine ⟨h.1.1.1, h.1.1.2, ?_⟩
      have := h.1.2
      tauto
    · intro h
      have hpos := h.2.2
      refine ⟨⟨⟨h.1, h.2.1⟩, by tauto⟩, by omega⟩

/-! ## Decimal-string lemmas for the reference-number generator -/

/-- A digit character has code point `48 + d`. -/
theorem digitChar_toNat {d : Nat} (h : d < 10) : (digitChar d).toNat = 48 + d := by
  interval_cases d <;> decide

/-- `digitChar` produces digit characters. -/
theorem digitChar_isDigit {d : Nat} (h : d < 10) : (digitChar d).isDigit = true := by
  interval_cases d <;> decide

/-- Code-point bounds of a digit character. -/
theorem char_isDigit_toNat {c : Char} (h : c.isDigit = true) :
    48 ≤ c.toNat ∧ c.toNat ≤ 57 := by
  simp [Char.isDigit] at h
  exact h

/-- A digit character is not the dash. -/
theorem char_isDigit_ne_dash {c : Char} (h : c.isDigit = true) : c ≠ '-' := by
  intro he
  subst he
  simp [Char.isDigit] at h

/-- The digit-value fold started from `s`. -/
theorem valD_from (l : List Char) : ∀ s : Nat,
    List.foldl (fun a c => a * 10 + (c.toNat - 48)) s l = s * 10 ^ l.length + valD l := by
  induction l with
  | nil =>
    intro s
    simp [valD]
  | cons c tl ih =>
    intro s
    have h0 : valD (c :: tl) = (c.toNat - 48) * 10 ^ tl.length + valD tl := by
      show List.foldl _ 0 (c :: tl) = _
      rw [List.foldl_cons, ih]
      simp
    rw [List.foldl_cons, ih, h0, List.length_cons]
    ring

/-- Digit value of a cons. -/
theorem valD_cons (c : Char) (tl : List Char) :
    valD (c :: tl) = (c.toNat - 48) * 10 ^ tl.length + valD tl := by
  show List.foldl _ 0 (c :: tl) = _
  rw [List.foldl_cons, valD_from]
  simp

/-- Digit value of an append. -/
theorem valD_append (a b : List Char) :
    valD (a ++ b) = valD a * 10 ^ b.length + valD b := by
  show List.foldl _ 0 (a ++ b) = _
  rw [List.foldl_append, valD_from]
  rfl

/-- The value of a digit list is below `10 ^ length`. -/
theorem valD_lt (l : List Char) (h : ∀ c ∈ l, c.isDigit = true) :
    valD l < 10 ^ l.length := by
  induction l with
  | nil =>
    simp [valD]
  | cons c tl ih =>
    rw [valD_cons, List.length_cons, pow_succ]
    have hc := char_isDigit_toNat (h c (List.mem_cons_self _ _))
    have htl := ih (fun x hx => h x (List.mem_cons_of_mem _ hx))
    have h9 : c.toNat - 48 ≤ 9 := by omega
    have hmul : (c.toNat - 48) * 10 ^ tl.length ≤ 9 * 10 ^ tl.length :=
      Nat.mul_le_mul_right _ h9
    omega

/-- Leading zeros contribute nothing to the digit value. -/
theorem valD_replicate_zero (n : Nat) : valD (List.replicate n '0') = 0 := by
  induction n with
  | zero => rfl
  | succ k ih =>
    rw [List.replicate_succ, valD_cons, ih]
    simp

/-- The lexicographic comparison is irreflexive. -/
theorem listLtb_irrefl (l : List Char) : listLtb l l = false := by
  induction l with
  | nil => rfl
  | cons c tl ih =>
    simp [listLtb, Nat.lt_irrefl, ih]

/-- Stripping a common front segment preserves the lexicographic
comparison. -/
theorem listLtb_append_left (p : List Char) : ∀ a b : List Char,
    listLtb (p ++ a) (p ++ b) = listLtb a b := by
  induction p with
  | nil =>
    intro a b
    rfl
  | cons c tl ih =>
    intro a b
    simp [listLtb, Nat.lt_irrefl, ih]

/-- On digit lists of equal length, the lexicographic comparison agrees with
the numeric comparison of their values. -/
theorem listLtb_digits (a : List Char) : ∀ b : List Char, a.length = b.length →
    (∀ c ∈ a, c.isDigit = true) → (∀ c ∈ b, c.isDigit = true) →
    (listLtb a b = true ↔ valD a < valD b) := by
  induction a with
  | nil =>
    intro b hlen _ _
    have hb : b = [] := by
      cases b with
      | nil => rfl
      | cons d bt => simp at hlen
    subst hb
    simp [listLtb, valD]
  | cons c tl ih =>
    intro b hlen ha hb
    cases b with
    | nil => simp at hlen
    | cons d bt =>
      have hlen2 : tl.length = bt.length := by simpa using hlen
      have hc := char_isDigit_toNat (ha c (List.mem_cons_self _ _))
      have hd := char_isDigit_toNat (hb d (List.mem_cons_self _ _))
      have hatl : ∀ x ∈ tl, x.isDigit = true := fun x hx => ha x (List.mem_cons_of_mem _ hx)
      have hbbt : ∀ x ∈ bt, x.isDigit = true := fun x hx => hb x (List.mem_cons_of_mem _ hx)
      have htlv := valD_lt tl hatl
      have hbtv := valD_lt bt hbbt
      rw [valD_cons, valD_cons, hlen2]
      rw [hlen2] at htlv
      by_cases h1 : c.toNat < d.toNat
      · rw [show listLtb (c :: tl) (d :: bt) = true from by simp [listLtb, h1]]
        simp only [true_iff]
        have hstep : (c.toNat - 48) + 1 ≤ d.toNat - 48 := by omega
        calc (c.toNat - 48) * 10 ^ bt.length + valD tl
            < (c.toNat - 48) * 10 ^ bt.length + 10 ^ bt.length := by omega
          _ = ((c.toNat - 48) + 1) * 10 ^ bt.length := by ring
          _ ≤ (d.toNat - 48) * 10 ^ bt.length := Nat.mul_le_mul_right _ hstep
          _ ≤ (d.toNat - 48) * 10 ^ bt.length + valD bt := Nat.le_add_right _ _
      · by_cases h2 : d.toNat < c.toNat
        · rw [show listLtb (c :: tl) (d :: bt) = false from by simp [listLtb, h1, h2]]
          simp only [Bool.false_eq_true, false_iff, not_lt]
          have hstep : (d.toNat - 48) + 1 ≤ c.toNat - 48 := by omega
          refine le_of_lt ?_
          calc (d.toNat - 48) * 10 ^ bt.length + valD bt
              < (d.toNat - 48) * 10 ^ bt.length + 10 ^ bt.length := by omega
            _ = ((d.toNat - 48) + 1) * 10 ^ bt.length := by ring
            _ ≤ (c.toNat - 48) * 10 ^ bt.length := Nat.mul_le_mul_right _ hstep
            _ ≤ (c.toNat - 48) * 10 ^ bt.length + valD tl := Nat.le_add_right _ _
        · have hcd : c.toNat = d.toNat := by omega
          rw [show listLtb (c :: tl) (d :: bt) = listLtb tl bt from by
            simp [listLtb, h1, h2]]
          rw [ih bt hlen2 hatl hbbt, hcd]
          omega

/-- Unfolding `decChars` on positive fuel. -/
theorem decChars_succ (fuel n : Nat) :
    decChars (fuel + 1) n =
      if n < 10 then [digitChar n] else decChars fuel (n / 10) ++ [digitChar (n % 10)] := rfl

/-- With sufficient fuel, `decChars` is non-empty, made of digits, has value
`n`, and at most `fuel + 1` characters. -/
theorem decChars_spec : ∀ (fuel n : Nat), n < 10 ^ (fuel + 1) →
    decChars (fuel + 1) n ≠ [] ∧
    (∀ c ∈ decChars (fuel + 1) n, c.isDigit = true) ∧
    valD (decChars (fuel + 1) n) = n ∧
    (decChars (fuel + 1) n).length ≤ fuel + 1 := by
  intro fuel
  induction fuel with
  | zero =>
    intro n h
    have h10 : n < 10 := by simpa using h
    rw [decChars_succ, if_pos h10]
    refine ⟨by simp, ?_, ?_, by simp⟩
    · intro c hc
      have : c = digitChar n := by simpa using hc
      subst this
      exact digitChar_isDigit h10
    · rw [valD_cons]
      simp [valD, digitChar_toNat h10]
  | succ fuel ih =>
    intro n h
    by_cases h10 : n < 10
    · rw [decChars_succ, if_pos h10]
      refine ⟨by simp, ?_, ?_, by simp⟩
      · intro c hc
        have : c = digitChar n := by simpa using hc
        subst this
        exact digitChar_isDigit h10
      · rw [valD_cons]
        simp [valD, digitChar_toNat h10]
    · rw [decChars_succ, if_neg h10]
      have hdiv : n / 10 < 10 ^ (fuel + 1) := by
        rw [Nat.div_lt_iff_lt_mul (by norm_num)]
        calc n < 10 ^ (fuel + 1 + 1) := h
          _ = 10 ^ (fuel + 1) * 10 := by ring
      obtain ⟨hne, hdig, hval, hlen⟩ := ih (n / 10) hdiv
      have hmod : n % 10 < 10 := Nat.mod_lt _ (by norm_num)
      refine ⟨by simp, ?_, ?_, ?_⟩
      · intro c hc
        rcases List.mem_append.mp hc with hc1 | hc2
        · exact hdig c hc1
        · have : c = digitChar (n % 10) := by simpa using hc2
          subst this
          exact digitChar_isDigit hmod
      · rw [valD_append, hval]
        rw [show valD [digitChar (n % 10)] = n % 10 from by
          rw [valD_cons]; simp [valD, digitChar_toNat hmod]]
        simp
        omega
      · rw [List.length_append]
        simp only [List.length_singleton]
        omega

/-- `decChars` does not depend on the fuel, once it is sufficient. -/
theorem decChars_stable : ∀ (fuel fuel2 n : Nat), n < 10 ^ (fuel + 1) →
    fuel + 1 ≤ fuel2 → decChars fuel2 n = decChars (fuel + 1) n := by
  intro fuel
  induction fuel with
  | zero =>
    intro fuel2 n h hle
    have h10 : n < 10 := by simpa using h
    obtain ⟨f2, rfl⟩ : ∃ f2, fuel2 = f2 + 1 := ⟨fuel2 - 1, by omega⟩
    rw [decChars_succ, decChars_succ, if_pos h10, if_pos h10]
  | succ fuel ih =>
    intro fuel2 n h hle
    obtain ⟨f2, rfl⟩ : ∃ f2, fuel2 = f2 + 1 := ⟨fuel2 - 1, by omega⟩
    by_cases h10 : n < 10
    · rw [decChars_succ, decChars_succ, if_pos h10, if_pos h10]
    · have hdiv : n / 10 < 10 ^ (fuel + 1) := by
        rw [Nat.div_lt_iff_lt_mul (by norm_num)]
        calc n < 10 ^ (fuel + 1 + 1) := h
          _ = 10 ^ (fuel + 1) * 10 := by ring
      rw [decChars_succ, decChars_succ, if_neg h10, if_neg h10,
        ih f2 (n / 10) hdiv (by omega)]

/-- Every natural is below `10 ^ (n + 1)`. -/
theorem lt_pow_succ_self (n : Nat) : n < 10 ^ (n + 1) := by
  rcases Nat.eq_zero_or_pos n with h | h
  · subst h
    decide
  · calc n < 10 ^ n := Nat.lt_pow_self (by norm_num) n
      _ ≤ 10 ^ (n + 1) := Nat.pow_le_pow_right (by norm_num) (Nat.le_succ n)

/-- The decimal string of `n` is `decChars` at any sufficient fuel. -/
theorem decStr_data (fuel n : Nat) (h : n < 10 ^ (fuel + 1)) :
    (decStr n).data = decChars (fuel + 1) n := by
  show decChars (n + 1) n = _
  rcases le_or_lt (fuel + 1) (n + 1) with hle | hlt
  · exact decChars_stable fuel (n + 1) n h hle
  · exact (decChars_stable n (fuel + 1) n (lt_pow_succ_self n) (by omega)).symm

/-- For sequence values up to `99999`, the padded reference segment is a
five-character digit string whose value is the sequence value. -/
theorem padRef_spec (k : Nat) (h : k < 100000) :
    (padRef k).data.length = 5 ∧
    (∀ c ∈ (padRef k).data, c.isDigit = true) ∧
    valD (padRef k).data = k := by
  have h5 : k < 10 ^ (4 + 1) := by norm_num at h ⊢; exact h
  have hdata := decStr_data 4 k h5
  obtain ⟨hne, hdig, hval, hlen⟩ := decChars_spec 4 k h5
  rw [← hdata] at hdig hval hlen
  have hshow : (padRef k).data =
      List.replicate (5 - (decStr k).data.length) '0' ++ (decStr k).data := rfl
  refine ⟨?_, ?_, ?_⟩
  · rw [hshow, List.length_append, List.length_replicate]
    omega
  · rw [hshow]
    intro c hc
    rcases List.mem_append.mp hc with hc1 | hc2
    · have : c = '0' := List.eq_of_mem_replicate hc1
      subst this
      decide
    · exact hdig c hc2
  · rw [hshow, valD_append, valD_replicate_zero, hval]
    simp

/-- Comparison of two equally-prefixed padded references agrees with the
numeric comparison of their sequence values. -/
theorem strLtb_padRef (pfx : String) {j k : Nat} (hj : j < 100000) (hk : k < 100000) :
    (strLtb (pfx ++ padRef j) (pfx ++ padRef k) = true) ↔ j < k := by
  obtain ⟨hlj, hdj, hvj⟩ := padRef_spec j hj
  obtain ⟨hlk, hdk, hvk⟩ := padRef_spec k hk
  unfold strLtb
  rw [String.data_append, String.data_append, listLtb_append_left,
    listLtb_digits _ _ (by rw [hlj, hlk]) hdj hdk, hvj, hvk]

/-- Two padded references with the same prefix and equal strings have equal
sequence values. -/
theorem padRef_inj (pfx : String) {j k : Nat} (hj : j < 100000) (hk : k < 100000)
    (h : pfx ++ padRef j = pfx ++ padRef k) : j = k := by
  obtain ⟨_, _, hvj⟩ := padRef_spec j hj
  obtain ⟨_, _, hvk⟩ := padRef_spec k hk
  have hdata : pfx.data ++ (padRef j).data = pfx.data ++ (padRef k).data := by
    rw [← String.data_append, ← String.data_append, h]
  have hpad : (padRef j).data = (padRef k).data := List.append_cancel_left hdata
  rw [← hvj, ← hvk, hpad]

/-- Running-maximum fold over well-formed references: starting from a
well-formed accumulator, the fold returns the reference of the maximal
sequence value seen. -/
theorem maxStr_go (pfx : String) : ∀ (l : List String) (m0 : Nat), m0 < 100000 →
    (∀ r ∈ l, ∃ k, k < 100000 ∧ r = pfx ++ padRef k) →
    ∃ m, m < 100000 ∧ m0 ≤ m ∧ (m = m0 ∨ (pfx ++ padRef m) ∈ l) ∧
      (∀ r ∈ l, ∀ k, k < 100000 → r = pfx ++ padRef k → k ≤ m) ∧
      List.foldl maxStep (some (pfx ++ padRef m0)) l = some (pfx ++ padRef m) := by
  intro l
  induction l with
  | nil =>
    intro m0 hm0 _
    exact ⟨m0, hm0, le_refl _, Or.inl rfl, by simp, rfl⟩
  | cons s tl ih =>
    intro m0 hm0 hwf
    obtain ⟨k0, hk0, rfl⟩ := hwf s (List.mem_cons_self _ _)
    have hwf2 : ∀ r ∈ tl, ∃ k, k < 100000 ∧ r = pfx ++ padRef k :=
      fun r hr => hwf r (List.mem_cons_of_mem _ hr)
    rw [List.foldl_cons]
    by_cases hlt : m0 < k0
    · have hb : strLtb (pfx ++ padRef m0) (pfx ++ padRef k0) = true :=
        (strLtb_padRef pfx hm0 hk0).mpr hlt
      rw [show maxStep (some (pfx ++ padRef m0)) (pfx ++ padRef k0) =
          some (pfx ++ padRef k0) from by simp [maxStep, hb]]
      obtain ⟨m, hm, hge, hmem, hbound, heq⟩ := ih k0 hk0 hwf2
      refine ⟨m, hm, by omega, ?_, ?_, heq⟩
      · rcases hmem with h | h
        · subst h
          exact Or.inr (List.mem_cons_self _ _)
        · exact Or.inr (List.mem_cons_of_mem _ h)
      · intro r hr k hk hrk
        rcases List.mem_cons.mp hr with h | h
        · have : k = k0 := padRef_inj pfx hk hk0 (by rw [← hrk, h])
          omega
        · exact hbound r h k hk hrk
    · have hb : strLtb (pfx ++ padRef m0) (pfx ++ padRef k0) = false := by
        rcases Bool.eq_false_or_eq_true (strLtb (pfx ++ padRef m0) (pfx ++ padRef k0)) with
          h | h
        · exact absurd ((strLtb_padRef pfx hm0 hk0).mp h) hlt
        · exact h
      rw [show maxStep (some (pfx ++ padRef m0)) (pfx ++ padRef k0) =
          some (pfx ++ padRef m0) from by simp [maxStep, hb]]
      obtain ⟨m, hm, hge, hmem, hbound, heq⟩ := ih m0 hm0 hwf2
      refine ⟨m, hm, hge, ?_, ?_, heq⟩
      · rcases hmem with h | h
        · exact Or.inl h
        · exact Or.inr (List.mem_cons_of_mem _ h)
      · intro r hr k hk hrk
        rcases List.mem_cons.mp hr with h | h
        · have : k = k0 := padRef_inj pfx hk hk0 (by rw [← hrk, h])
          omega
        · exact hbound r h k hk hrk

/-- `maxStr` over a non-empty list of well-formed references returns the
reference with the maximal sequence value. -/
theorem maxStr_wf (pfx : String) (l : List String)
    (hwf : ∀ r ∈ l, ∃ k, k < 100000 ∧ r = pfx ++ padRef k) (hne : l ≠ []) :
    ∃ m, m < 100000 ∧ (pfx ++ padRef m) ∈ l ∧
      (∀ r ∈ l, ∀ k, k < 100000 → r = pfx ++ padRef k → k ≤ m) ∧
      maxStr l = some (pfx ++ padRef m) := by
  cases l with
  | nil => exact absurd rfl hne
  | cons s tl =>
    obtain ⟨k0, hk0, rfl⟩ := hwf s (List.mem_cons_self _ _)
    have hwf2 : ∀ r ∈ tl, ∃ k, k < 100000 ∧ r = pfx ++ padRef k :=
      fun r hr => hwf r (List.mem_cons_of_mem _ hr)
    obtain ⟨m, hm, hge, hmem, hbound, heq⟩ := maxStr_go pfx tl k0 hk0 hwf2
    refine ⟨m, hm, ?_, ?_, ?_⟩
    · rcases hmem with h | h
      · subst h
        exact List.mem_cons_self _ _
      · exact List.mem_cons_of_mem _ h
    · intro r hr k hk hrk
      rcases List.mem_cons.mp hr with h | h
      · have : k = k0 := padRef_inj pfx hk hk0 (by rw [← hrk, h])
        omega
      · exact hbound r h k hk hrk
    · show List.foldl maxStep none (_ :: tl) = _
      rw [List.foldl_cons]
      exact heq

/-- Splitting a dash-free character list yields one segment. -/
theorem splitDashAux_no_dash : ∀ (s acc : List Char), (∀ c ∈ s, c ≠ '-') →
    splitDashAux s acc = [acc.reverse ++ s] := by
  intro s
  induction s with
  | nil =>
    intro acc _
    simp [splitDashAux]
  | cons c rest ih =>
    intro acc h
    have hc : c ≠ '-' := h c (List.mem_cons_self _ _)
    rw [show splitDashAux (c :: rest) acc = splitDashAux rest (c :: acc) from by
      simp [splitDashAux, hc]]
    rw [ih (c :: acc) (fun x hx => h x (List.mem_cons_of_mem _ hx))]
    simp

/-- Splitting a list of the shape `q ++ '-' :: s` with dash-free `q` and `s`
yields exactly the two segments. -/
theorem splitDashAux_two : ∀ (q s acc : List Char), (∀ c ∈ q, c ≠ '-') →
    (∀ c ∈ s, c ≠ '-') →
    splitDashAux (q ++ '-' :: s) acc = [acc.reverse ++ q, s] := by
  intro q
  induction q with
  | nil =>
    intro s acc _ hs
    rw [show splitDashAux ([] ++ '-' :: s) acc = acc.reverse :: splitDashAux s [] from by
      simp [splitDashAux]]
    rw [splitDashAux_no_dash s [] hs]
    simp
  | cons c rest ih =>
    intro s acc hq hs
    have hc : c ≠ '-' := hq c (List.mem_cons_self _ _)
    rw [show splitDashAux ((c :: rest) ++ '-' :: s) acc =
        splitDashAux (rest ++ '-' :: s) (c :: acc) from by simp [splitDashAux, hc]]
    rw [ih s (c :: acc) (fun x hx => hq x (List.mem_cons_of_mem _ hx)) hs]
    simp

/-- `takeWhile` keeps a list every element of which satisfies the
predicate. -/
theorem takeWhile_all {α : Type} {p : α → Bool} :
    ∀ l : List α, (∀ c ∈ l, p c = true) → l.takeWhile p = l := by
  intro l
  induction l with
  | nil =>
    intro _
    rfl
  | cons c tl ih =>
    intro h
    rw [List.takeWhile_cons, if_pos (h c (List.mem_cons_self _ _)),
      ih (fun x hx => h x (List.mem_cons_of_mem _ hx))]

/-- A digit string parses to its digit value. -/
theorem parseIntJS_digits (l : List Char) (hne : l ≠ [])
    (hdig : ∀ c ∈ l, c.isDigit = true) : parseIntJS ⟨l⟩ = some (valD l) := by
  unfold parseIntJS
  simp only [show (String.mk l).data = l from rfl, takeWhile_all l hdig]
  rw [if_neg hne]

/-- Each type prefix is a dash-free segment followed by one dash. -/
theorem refPfx_shape (t : String) :
    ∃ q : List Char, (∀ c ∈ q, c ≠ '-') ∧ (refPfx t).data = q ++ ['-'] := by
  unfold refPfx
  split_ifs
  · exact ⟨['I', 'B'], by decide, rfl⟩
  · exact ⟨['O', 'B'], by decide, rfl⟩
  · exact ⟨['A', 'D', 'J'], by decide, rfl⟩

/-- A list starts with itself followed by anything. -/
theorem listStarts_append : ∀ p s : List Char, listStarts p (p ++ s) = true := by
  intro p
  induction p with
  | nil =>
    intro s
    rfl
  | cons c tl ih =>
    intro s
    simp [listStarts, ih]

/-- A string starts with its own front segment. -/
theorem strStarts_append (pfx s : String) : strStarts (pfx ++ s) pfx = true := by
  unfold strStarts
  rw [String.data_append]
  exact listStarts_append _ _

/-- With no stored reference carrying the prefix, the minted sequence
segment is `"00001"`. -/
theorem nextSequence_empty (store : Store) (pfx : String)
    (h : pfxRefs store pfx = []) : nextSequence store pfx = "00001" := by
  unfold nextSequence
  rw [h]
  rfl

/-- On a store whose references with the prefix are well-formed with maximal
sequence value `m > 0`, the minted sequence segment is `padRef (m + 1)`:
the parse of the lexicographically maximal reference, plus one, padded. -/
theorem nextSequence_wf (store : Store) (pfx : String) (q : List Char)
    (hq : ∀ c ∈ q, c ≠ '-') (hpfx : pfx.data = q ++ ['-'])
    (m : Nat) (hm : 0 < m) (hwf : refsWF store pfx m) :
    nextSequence store pfx = padRef (m + 1) := by
  obtain ⟨hm5, hmem, hall⟩ := hwf
  have hwf2 : ∀ r ∈ pfxRefs store pfx, ∃ k, k < 100000 ∧ r = pfx ++ padRef k := by
    intro r hr
    obtain ⟨k, hk1, hk2, hk3⟩ := hall r hr
    exact ⟨k, by omega, hk3⟩
  have hne : pfxRefs store pfx ≠ [] := by
    intro h
    rw [h] at hmem
    exact absurd (hmem hm) (List.not_mem_nil _)
  obtain ⟨mx, hmx5, hmxmem, hmxbound, hmax⟩ := maxStr_wf pfx _ hwf2 hne
  have hmxm : mx = m := by
    obtain ⟨k, hk1, hk2, hk3⟩ := hall _ hmxmem
    have he : mx = k := padRef_inj pfx hmx5 (by omega) hk3
    have h2 : m ≤ mx := hmxbound _ (hmem hm) m (by omega) rfl
    omega
  subst hmxm
  obtain ⟨hlen, hdig, hval⟩ := padRef_spec mx hmx5
  have hsplit : jsSplitDash (pfx ++ padRef mx) = [⟨q⟩, ⟨(padRef mx).data⟩] := by
    unfold jsSplitDash
    rw [String.data_append, hpfx]
    rw [show (q ++ ['-']) ++ (padRef mx).data = q ++ '-' :: (padRef mx).data from by simp]
    rw [splitDashAux_two q _ [] hq (fun c hc => char_isDigit_ne_dash (hdig c hc))]
    simp
  have hpadne : (padRef mx).data ≠ [] := by
    intro h
    rw [h] at hlen
    simp at hlen
  unfold nextSequence
  rw [hmax]
  show (match parseIntJS ((jsSplitDash (pfx ++ padRef mx)).getD 1 "") with
    | none => "00NaN"
    | some lastNum => padStartZero (decStr (lastNum + 1)) 5) = padRef (mx + 1)
  rw [hsplit]
  rw [show ([⟨q⟩, ⟨(padRef mx).data⟩] : List String).getD 1 "" = ⟨(padRef mx).data⟩ from rfl]
  rw [show (⟨(padRef mx).data⟩ : String) = padRef mx from rfl]
  rw [show parseIntJS (padRef mx) = some (valD (padRef mx).data) from
    parseIntJS_digits _ hpadne hdig]
  rw [hval]
  rfl

/-- A validated non-transfer create mints exactly one header carrying
`refPfx ++ nextSequence`. -/
theorem createTransaction_mint (store : Store) (data : TransactionFormData)
    (hval : isStatusValidForType data.status data.type = true)
    (hnt : ¬(data.referenceType = "Transfer Order" ∧
      strTruthy data.transferToWarehouse = true)) :
    ∃ hdr, (createTransaction store data).1 = some hdr ∧
      hdr.reference_number = refPfx data.type ++ nextSequence store (refPfx data.type) ∧
      (createTransaction store data).2.headers = store.headers ++ [hdr] := by
  unfold createTransaction
  rw [if_neg (by simp [hval])]
  simp only [Store.fresh]
  rw [if_neg hnt]
  simp only [mintDetails_headers]
  exact ⟨_, rfl, rfl, rfl⟩

/-- One validated non-transfer create on a well-formed store mints
`padRef (m + 1)` and leaves the store well-formed at `m + 1`. -/
theorem refsWF_step (store : Store) (data : TransactionFormData) (m : Nat)
    (hval : isStatusValidForType data.status data.type = true)
    (hnt : ¬(data.referenceType = "Transfer Order" ∧
      strTruthy data.transferToWarehouse = true))
    (hwf : refsWF store (refPfx data.type) m) (hm1 : m + 1 < 100000) :
    (createTransaction store data).1.map (fun h => h.reference_number) =
      some (refPfx data.type ++ padRef (m + 1)) ∧
    refsWF (createTransaction store data).2 (refPfx data.type) (m + 1) := by
  obtain ⟨q, hq, hpfx⟩ := refPfx_shape data.type
  obtain ⟨hdr, h1, h2, h3⟩ := createTransaction_mint store data hval hnt
  have hseq : nextSequence store (refPfx data.type) = padRef (m + 1) := by
    rcases Nat.eq_zero_or_pos m with hm0 | hmpos
    · subst hm0
      have hempty : pfxRefs store (refPfx data.type) = [] := by
        rcases hl : pfxRefs store (refPfx data.type) with _ | ⟨r, tl⟩
        · rfl
        · obtain ⟨k, hk1, hk2, _⟩ := hwf.2.2 r (by rw [hl]; exact List.mem_cons_self _ _)
          omega
      rw [nextSequence_empty store _ hempty]
      decide
    · exact nextSequence_wf store _ q hq hpfx m hmpos hwf
  have h2b : hdr.reference_number = refPfx data.type ++ padRef (m + 1) := by
    rw [h2, hseq]
  refine ⟨?_, ?_⟩
  · rw [h1]
    show some hdr.reference_number = _
    rw [h2b]
  · have hrefs : pfxRefs (createTransaction store data).2 (refPfx data.type) =
        pfxRefs store (refPfx data.type) ++ [refPfx data.type ++ padRef (m + 1)] := by
      unfold pfxRefs
      rw [h3, List.map_append, List.filter_append]
      rw [show List.map (fun h => h.reference_number) [hdr] = [hdr.reference_number]
        from rfl]
      rw [h2b]
      simp [strStarts_append]
    refine ⟨by omega, ?_, ?_⟩
    · intro _
      rw [hrefs]
      simp
    · intro r hr
      rw [hrefs] at hr
      rcases List.mem_append.mp hr with h | h
      · obtain ⟨k, hk1, hk2, hk3⟩ := hwf.2.2 r h
        exact ⟨k, hk1, by omega, hk3⟩
      · have hre : r = refPfx data.type ++ padRef (m + 1) := by simpa using h
        exact ⟨m + 1, by omega, le_refl _, hre⟩

/-- Sequential validated non-transfer creates keep the prefix well-formed,
advancing the maximal sequence value by one per create. -/
theorem createSeq_wf (data : TransactionFormData)
    (hval : isStatusValidForType data.status data.type = true)
    (hnt : ¬(data.referenceType = "Transfer Order" ∧
      strTruthy data.transferToWarehouse = true)) :
    ∀ (i : Nat) (store : Store) (m : Nat),
    refsWF store (refPfx data.type) m → m + i < 100000 →
    refsWF (createSeq data i store) (refPfx data.type) (m + i) := by
  intro i
  induction i with
  | zero =>
    intro store m h _
    simpa using h
  | succ i ih =>
    intro store m h hb
    show refsWF (createSeq data i (createTransaction store data).2) _ _
    have hstep := (refsWF_step store data m hval hnt h (by omega)).2
    have harith : m + 1 + i = m + (i + 1) := by omega
    rw [← harith]
    exact ih _ (m + 1) hstep (by omega)

/-- C2 counterexample: with the five-digit suffix exhausted (`IB-99999`
stored), two sequential Inbound creates both mint `IB-100000` — a six-digit
suffix, repeated — refuting both the "5-digit zero-padded" shape and the
"suffixes strictly increasing by 1" part of the claim. -/
theorem claim_C2_counterexample :
    wStore99999.headers.map (fun h => h.reference_number) = ["IB-99999"] ∧
    (createTransaction wStore99999 wInboundData).1.map (fun h => h.reference_number) =
      some "IB-100000" ∧
    (createTransaction (createTransaction wStore99999 wInboundData).2
        wInboundData).1.map (fun h => h.reference_number) = some "IB-100000" := by
  exact ⟨by decide, by decide, by decide⟩

/-- C2 (amended): on a store whose references with the type's prefix are
well-formed with maximal numeric suffix `m` (`m = 0` meaning none exists, so
the sequence starts at `00001`), each of `N` sequential creates mints the
prefix followed by the parsed maximal suffix plus one, zero-padded to 5
digits — suffixes strictly increasing by 1 — provided the suffixes stay at or
below `99999`; at `100000` the padded shape and the strict increase break
(see the counterexample). -/
theorem claim_C2_reference_sequence (store : Store) (data : TransactionFormData)
    (m N : Nat)
    (hval : isStatusValidForType data.status data.type = true)
    (hnt : ¬(data.referenceType = "Transfer Order" ∧
      strTruthy data.transferToWarehouse = true))
    (hwf : refsWF store (refPfx data.type) m)
    (hbound : m + N < 100000) :
    ∀ i < N,
      (createTransaction (createSeq data i store) data).1.map
          (fun h => h.reference_number) =
        some (refPfx data.type ++ padRef (m + i + 1)) ∧
      (padRef (m + i + 1)).data.length = 5 := by
  intro i hi
  have hwfi : refsWF (createSeq data i store) (refPfx data.type) (m + i) :=
    createSeq_wf data hval hnt i store m hwf (by omega)
  have hstep := refsWF_step (createSeq data i store) data (m + i) hval hnt hwfi (by omega)
  exact ⟨hstep.1, (padRef_spec (m + i + 1) (by omega)).1⟩

/-- C2 witness: from the empty store, the first two Inbound creates mint
`IB-00001` and `IB-00002`. -/
theorem claim_C2_reference_sequence_witness :
    ((createTransaction (createSeq wInboundData 0 wStore) wInboundData).1.map
        (fun h => h.reference_number) =
      some (refPfx wInboundData.type ++ padRef (0 + 0 + 1)) ∧
      (padRef (0 + 0 + 1)).data.length = 5) ∧
    ((createTransaction (createSeq wInboundData 1 wStore) wInboundData).1.map
        (fun h => h.reference_number) =
      some (refPfx wInboundData.type ++ padRef (0 + 1 + 1)) ∧
      (padRef (0 + 1 + 1)).data.length = 5) := by
  have hwf : refsWF wStore (refPfx wInboundData.type) 0 := by
    refine ⟨by decide, fun h => absurd h (by decide), ?_⟩
    intro r hr
    simp [pfxRefs, wStore] at hr
  have h := claim_C2_reference_sequence wStore wInboundData 0 2 (by decide)
    (by decide) hwf (by decide)
  exact ⟨h 0 (by decide), h 1 (by decide)⟩

/-- C3 witness: the transfer fixture produces the Outbound header and its
Inbound mirror at warehouse W2. -/
theorem claim_C3_transfer_mirror_witness :
    ∃ hdr inb,
      (createTransaction wStore wTransferData).1 = some hdr ∧
      (createTransaction wStore wTransferData).2.headers =
        wStore.headers ++ [hdr] ++ [inb] ∧
      hdr.transaction_type = wTransferData.type ∧
      inb.transaction_type = "Inbound" ∧
      inb.warehouse = wTransferData.transferToWarehouse ∧
      inb.related_transaction_id = some hdr.transaction_id ∧
      (∃ seq, hdr.reference_number = refPfx wTransferData.type ++ seq ∧
        inb.reference_number = "IB-" ++ seq) ∧
      ∃ primRows inbRows,
        (createTransaction wStore wTransferData).2.details =
          wStore.details ++ primRows ++ inbRows ∧
        List.Forall₂
          (fun item row =>
            row.transaction_id = hdr.transaction_id ∧
            row.item_name = item.item_name ∧
            row.quantity = item.quantity.getD 0 ∧
            row.status = wTransferData.status)
          wTransferData.items primRows ∧
        List.Forall₂
          (fun item row =>
            row.transaction_id = inb.transaction_id ∧
            row.item_name = item.item_name ∧
            row.quantity = item.quantity.getD 0 ∧
            row.status = "Pending" ∧
            row.inventory_status =
              optOr wTransferData.transferToInventoryStatus wTransferData.inventoryStatus)
          wTransferData.items inbRows :=
  claim_C3_transfer_mirror wStore wTransferData (by decide) (by decide) (by decide)

/-- C4 witness: the spec's variance example (A: −5, B: 0, C: +3) produces
exactly the shortage and overage lines. -/
theorem claim_C4_adjustment_from_variances_witness :
    ∃ hdr newRows,
      (generateAdjustment wStore "W1" "2024-06-01"
        (calculateVariances wCountData wInvRows) 7).1.isSome = true ∧
      (generateAdjustment wStore "W1" "2024-06-01"
        (calculateVariances wCountData wInvRows) 7).2.headers =
        wStore.headers ++ [hdr] ∧
      hdr.transaction_type = "Adjustment" ∧
      (generateAdjustment wStore "W1" "2024-06-01"
        (calculateVariances wCountData wInvRows) 7).2.details =
        wStore.details ++ newRows ∧
      List.Forall₂
        (fun v row =>
          row.item_name = v.itemName ∧
          row.quantity = Int.ofNat (v.physicalCount - v.calculatedCount).natAbs ∧
          row.status = "Completed" ∧
          row.inventory_status = "Stock" ∧
          row.comments = some (if v.physicalCount - v.calculatedCount > (0 : Int) then
            "Count overage" else "Count shortage"))
        ((calculateVariances wCountData wInvRows).filter (fun v => v.variance != 0))
        newRows :=
  claim_C4_adjustment_from_variances wStore "W1" "2024-06-01" wCountData wInvRows 7
    (by decide) (by decide) (by decide)

/-- C5 witness: advancing transaction 7 flips its Pending line to Shipped and
leaves everything else alone; a transaction with no Pending lines is a
successful no-op; an unrecognized type fails without mutation. -/
theorem claim_C5_advance_frame_witness :
    ((advanceTransactionToNextStep wAdvStore wTxOut).1 = true ∧
      (advanceTransactionToNextStep wAdvStore wTxOut).2.headers = wAdvStore.headers ∧
      List.Forall₂
        (fun d d2 =>
          (d.transaction_id = wTxOut.transaction_id ∧ d.status = "Pending" →
            d2 = { d with status := "Shipped" }) ∧
          (¬(d.transaction_id = wTxOut.transaction_id ∧ d.status = "Pending") → d2 = d))
        wAdvStore.details (advanceTransactionToNextStep wAdvStore wTxOut).2.details) ∧
    advanceTransactionToNextStep wAdvStore wTxEmpty = (true, wAdvStore) ∧
    advanceTransactionToNextStep wAdvStore wTxUnknown = (false, wAdvStore) :=
  ⟨(claim_C5_advance_frame wAdvStore wTxOut).1 "Shipped" (by decide),
   (claim_C5_advance_frame wAdvStore wTxEmpty).2.1 (by decide) "Shipped" (by decide),
   (claim_C5_advance_frame wAdvStore wTxUnknown).2.2 (by decide)⟩

/-- C6 witness: on the fixture rows, the dedup keeps the date-5 row for item
A and the item-B row, shadowing the older item-A row. -/
theorem claim_C6_latest_snapshot_wins_witness :
    (latestSnapshots wSortedRows).Pairwise (fun a b => a.item_name ≠ b.item_name) ∧
    (∀ r ∈ latestSnapshots wSortedRows, r ∈ wSortedRows ∧
      ∀ y ∈ wSortedRows, y.item_name = r.item_name →
        y.transaction_date ≤ r.transaction_date) ∧
    (∀ r ∈ wSortedRows, ∃ x ∈ latestSnapshots wSortedRows, x.item_name = r.item_name) :=
  claim_C6_latest_snapshot_wins wSortedRows (by decide)

/-- C7 witness: an invalid create and an invalid detail update are both
rejected with the empty store untouched. -/
theorem claim_C7_invalid_status_rejected_witness :
    createTransaction wStore wInvalidData = (none, wStore) ∧
    updateTransactionDetail wStore 5 wShippedDetail = (false, wStore) :=
  claim_C7_invalid_status_rejected wStore wInvalidData 5 wShippedDetail
    (by decide) (by decide)

/-- C8 witness: the amended filters evaluated at the fixture rows. -/
theorem claim_C8_active_row_filters_witness :
    (wRowA ∈ activeCountRows wSortedRows ↔
      (wRowA.onHandTotal ≠ 0 ∨ wRowA.inboundTotal ≠ 0 ∨
        wRowA.scheduledOutboundTotal ≠ 0)) ∧
    (wSummaryRow ∈ handleSelectWarehouse [wSummaryRow] "W" ↔
      (wSummaryRow ∈ [wSummaryRow] ∧ wSummaryRow.warehouse = "W" ∧
        (wSummaryRow.on_hand_total > 0 ∨ wSummaryRow.inbound_total > 0 ∨
          wSummaryRow.scheduled_outbound_total > 0 ∨
          wSummaryRow.future_inventory_total > 0))) :=
  ⟨(claim_C8_active_row_filters wSortedRows [wSummaryRow] "W").1 wRowA (by decide),
   (claim_C8_active_row_filters wSortedRows [wSummaryRow] "W").2 wSummaryRow⟩

/-- C9 witness: one all-zero variance still writes the header and no detail
lines; the empty variance list writes nothing. -/
theorem claim_C9_all_zero_variances_witness :
    ((generateAdjustment wStore "W1" "2024-06-01" wZeroVariances 7).1.isSome = true ∧
      (∃ hdr, (generateAdjustment wStore "W1" "2024-06-01" wZeroVariances 7).2.headers =
          wStore.headers ++ [hdr] ∧
        hdr.transaction_type = "Adjustment" ∧
        hdr.reference_number = "ADJ-COUNT-" ++ decStr 7) ∧
      (generateAdjustment wStore "W1" "2024-06-01" wZeroVariances 7).2.details =
        wStore.details) ∧
    generateAdjustment wStore "W1" "2024-06-01" [] 7 = (none, wStore) :=
  ⟨(claim_C9_all_zero_variances wStore "W1" "2024-06-01" wZeroVariances 7
      (by decide) (by decide) (by decide)).1 (by decide),
   (claim_C9_all_zero_variances wStore "W1" "2024-06-01" [] 7
      (by decide) (by decide) (by simp)).2 rfl⟩

/-- C10 witness: updating against a transaction id absent from the store
validates against the Adjustment rules. -/
theorem claim_C10_fallback_adjustment_witness :
    getTransactionType wStore 42 = "Adjustment" ∧
    ((updateTransactionDetail wStore 42 wPendingDetail).1 = true ↔
      wPendingDetail.status = "Pending" ∨ wPendingDetail.status = "Completed") :=
  claim_C10_fallback_adjustment wStore 42 wPendingDetail (by decide)
